import Mathlib

/-
Verification of the metadata-extraction core of generate_apps.py
(radiology-topic-analysis): folder-name parsing, topic-count derivation
from score documents, data-file selection, output-directory naming, and
the per-folder error isolation of the batch driver.

Strings are modelled as lists of characters.  The Python regular
expression match is modelled by an explicit greedy split search that
mirrors the backtracking of the anchored pattern
  caret (.+)_with_pagerank_(nmtf|pnmf)_bpe_(digits+) dollar
used with re.match, including three points of re semantics: the dot of
the dataset group matches every character except the newline; the digit
class matches every Unicode decimal digit (category Nd), not only the
ASCII ones, and int() on the matched group combines their decimal
values; and the dollar anchor matches at the end of the string or just
before a single newline that ends the string, so a name with one
trailing newline is accepted.  The dataset group is maximal and the
method group is one of the two literal alternatives.
-/

/-- Descriptor returned by parse_folder_name: the dict with keys
dataset, method, topic_count. -/
structure FolderDescriptor where
  dataset : List Char
  method : List Char
  topic_count : Nat
deriving DecidableEq, Repr

/-- The literal separator between the dataset group and the method group
in the pattern, the characters of the text _with_pagerank_. -/
def sepChars : List Char :=
  ['_', 'w', 'i', 't', 'h', '_', 'p', 'a', 'g', 'e', 'r', 'a', 'n', 'k', '_']

/-- The first method alternative, the characters of nmtf. -/
def nmtfChars : List Char := ['n', 'm', 't', 'f']

/-- The second method alternative, the characters of pnmf. -/
def pnmfChars : List Char := ['p', 'n', 'm', 'f']

/-- The literal separator before the digit group, the characters of
the text _bpe_. -/
def bpeChars : List Char := ['_', 'b', 'p', 'e', '_']

/-- Strip a literal pattern from the front of a string: returns the
remainder when the pattern is a prefix, and none otherwise. -/
def dropPre : List Char → List Char → Option (List Char)
  | [], s => some s
  | _ :: _, [] => none
  | p :: ps, c :: cs => if c = p then dropPre ps cs else none

/-- The alternation nmtf or pnmf: try the first alternative, then the
second, returning the matched literal and the remainder. -/
def stripMethod (s : List Char) : Option (List Char × List Char) :=
  match dropPre nmtfChars s with
  | some r => some (nmtfChars, r)
  | none =>
    match dropPre pnmfChars s with
    | some r => some (pnmfChars, r)
    | none => none

/-- The code-point ranges of the Unicode decimal digits, category Nd,
as tabulated by CPython's unicodedata (Unicode 14, CPython 3.11): the
character class the digit escape of a str pattern matches.  Every range
covers whole runs of ten, and the decimal value of a digit is its
offset from the start of its range, modulo ten. -/
def ndRanges : List (Nat × Nat) :=
  [(0x30, 0x39), (0x660, 0x669), (0x6F0, 0x6F9), (0x7C0, 0x7C9),
   (0x966, 0x96F), (0x9E6, 0x9EF), (0xA66, 0xA6F), (0xAE6, 0xAEF),
   (0xB66, 0xB6F), (0xBE6, 0xBEF), (0xC66, 0xC6F), (0xCE6, 0xCEF),
   (0xD66, 0xD6F), (0xDE6, 0xDEF), (0xE50, 0xE59), (0xED0, 0xED9),
   (0xF20, 0xF29), (0x1040, 0x1049), (0x1090, 0x1099), (0x17E0, 0x17E9),
   (0x1810, 0x1819), (0x1946, 0x194F), (0x19D0, 0x19D9), (0x1A80, 0x1A89),
   (0x1A90, 0x1A99), (0x1B50, 0x1B59), (0x1BB0, 0x1BB9), (0x1C40, 0x1C49),
   (0x1C50, 0x1C59), (0xA620, 0xA629), (0xA8D0, 0xA8D9), (0xA900, 0xA909),
   (0xA9D0, 0xA9D9), (0xA9F0, 0xA9F9), (0xAA50, 0xAA59), (0xABF0, 0xABF9),
   (0xFF10, 0xFF19), (0x104A0, 0x104A9), (0x10D30, 0x10D39),
   (0x11066, 0x1106F), (0x110F0, 0x110F9), (0x11136, 0x1113F),
   (0x111D0, 0x111D9), (0x112F0, 0x112F9), (0x11450, 0x11459),
   (0x114D0, 0x114D9), (0x11650, 0x11659), (0x116C0, 0x116C9),
   (0x11730, 0x11739), (0x118E0, 0x118E9), (0x11950, 0x11959),
   (0x11C50, 0x11C59), (0x11D50, 0x11D59), (0x11DA0, 0x11DA9),
   (0x16A60, 0x16A69), (0x16AC0, 0x16AC9), (0x16B50, 0x16B59),
   (0x1D7CE, 0x1D7FF), (0x1E140, 0x1E149), (0x1E2F0, 0x1E2F9),
   (0x1E950, 0x1E959), (0x1FBF0, 0x1FBF9)]

/-- Membership in the digit class of the pattern: a Unicode decimal
digit, category Nd. -/
def isPyDigit (c : Char) : Bool :=
  ndRanges.any (fun r => r.fst ≤ c.toNat && c.toNat ≤ r.snd)

/-- The decimal value of a Unicode decimal digit, as int() reads it:
its offset from the start of its Nd range, modulo ten. -/
def pyDigitVal (c : Char) : Nat :=
  match ndRanges.find? (fun r => r.fst ≤ c.toNat && c.toNat ≤ r.snd) with
  | some r => (c.toNat - r.fst) % 10
  | none => 0

/-- Value of a decimal digit string, as Python int() computes it on the
matched digit group. -/
def natOfDigits (ds : List Char) : Nat :=
  ds.foldl (fun a c => 10 * a + pyDigitVal c) 0

/-- The digit group the anchored tail digits-then-dollar selects from
the remainder of the string: the whole remainder, or the remainder less
a single trailing newline, since the dollar anchor also matches just
before a newline that ends the string. -/
def stripDollar (rest : List Char) : List Char :=
  if rest.getLast? = some '\n' then rest.dropLast else rest

/-- Attempt the regular-expression match with the dataset group bound to
the first i characters: the dataset group needs at least one character
and its dot never matches a newline; the remainder must be the
separator, one of the two method literals, the bpe separator, and a
nonempty run of Unicode decimal digits reaching the end of the string
or a single final newline. -/
def parseAt (s : List Char) (i : Nat) : Option FolderDescriptor :=
  if i = 0 then none
  else if '\n' ∈ s.take i then none
  else
    match dropPre sepChars (s.drop i) with
    | none => none
    | some r1 =>
      match stripMethod r1 with
      | none => none
      | some (m, r2) =>
        match dropPre bpeChars r2 with
        | none => none
        | some rest =>
          if (stripDollar rest).isEmpty then none
          else if (stripDollar rest).all isPyDigit then
            some ⟨s.take i, m, natOfDigits (stripDollar rest)⟩
          else none

/-- Greedy backtracking over the dataset group: try the longest dataset
first, mirroring how the regex engine backtracks the leading greedy
group. -/
def tryFrom (s : List Char) : Nat → Option FolderDescriptor
  | 0 => none
  | i + 1 =>
    match parseAt s (i + 1) with
    | some r => some r
    | none => tryFrom s i

/-- parse_folder_name from generate_apps.py: match the folder name
against the anchored pattern and return the descriptor, or none when the
pattern does not match. -/
def parse_folder_name (s : List Char) : Option FolderDescriptor :=
  tryFrom s s.length

/-- The decimal digit character for a value below ten. -/
def digitChar : Nat → Char
  | 0 => '0'
  | 1 => '1'
  | 2 => '2'
  | 3 => '3'
  | 4 => '4'
  | 5 => '5'
  | 6 => '6'
  | 7 => '7'
  | 8 => '8'
  | 9 => '9'
  | _ => '*'

/-- Fuel-driven decimal rendering helper; the fuel bounds the number of
digits and n + 1 fuel always suffices. -/
def natDigitsAux : Nat → Nat → List Char
  | 0, _ => []
  | fuel + 1, n =>
    if n < 10 then [digitChar n]
    else natDigitsAux fuel (n / 10) ++ [digitChar (n % 10)]

/-- Canonical decimal rendering of a natural number, with no leading
zeros: the form of a non-negative Python integer literal, and the text
str produces for the topic count. -/
def natDigits (n : Nat) : List Char := natDigitsAux (n + 1) n

/-- The naming grammar of the specification: the string is a dataset,
the literal _with_pagerank_, a method that is nmtf or pnmf, the literal
_bpe_, and a nonempty run of decimal digits. -/
def matchesGrammar (s : List Char) : Prop :=
  ∃ d m ds, (m = nmtfChars ∨ m = pnmfChars) ∧ ds ≠ [] ∧
    ds.all Char.isDigit = true ∧ s = d ++ sepChars ++ m ++ bpeChars ++ ds

/-- The language the regular expression actually accepts, which is
wider than the naming grammar of the specification on two points: the
digit group admits every Unicode decimal digit, and the whole name may
carry one trailing newline, which the dollar anchor steps over.  The
dataset is nonempty and free of newlines, as the dot demands. -/
def matchesRegexLang (s : List Char) : Prop :=
  ∃ d m ds t, d ≠ [] ∧ '\n' ∉ d ∧ (m = nmtfChars ∨ m = pnmfChars) ∧
    ds ≠ [] ∧ ds.all isPyDigit = true ∧ (t = [] ∨ t = ['\n']) ∧
    s = d ++ sepChars ++ m ++ bpeChars ++ ds ++ t

/-- A JSON value, as json.load produces it; null, numbers and booleans
are collapsed into the atom constructor: the extractor never looks
inside them, it only len()s them or probes them for a key, and both of
those raise a TypeError on each of them alike. -/
inductive Json where
  | atom : Json
  | str : List Char → Json
  | arr : List Json → Json
  | obj : List (List Char × Json) → Json

/-- A parsed JSON document at top level: a Python dict, keys unique. -/
abbrev Dict := List (List Char × Json)

/-- Python dict lookup on the association-list model: the key test
(key in d) succeeds exactly when this returns some. -/
def dlookup : Dict → List Char → Option Json
  | [], _ => none
  | (k, v) :: kvs, key => if key = k then some v else dlookup kvs key

/-- The Python exception the extractor can raise: the TypeError of
len() on an unsized value, of probing a non-container for a key, or of
indexing a str or list with a string key. -/
inductive PyErr where
  | typeError
deriving DecidableEq, Repr

/-- Python len() on a JSON value: the number of keys of a dict, the
number of elements of a list, the number of characters of a str, and a
TypeError on null, numbers and booleans. -/
def pyLen : Json → Except PyErr Nat
  | .atom => .error .typeError
  | .str s => .ok s.length
  | .arr xs => .ok xs.length
  | .obj kvs => .ok kvs.length

/-- Whether the pattern is a prefix of the text, character by
character. -/
def startsWith : List Char → List Char → Bool
  | [], _ => true
  | _ :: _, [] => false
  | p :: ps, c :: cs => c = p && startsWith ps cs

/-- Python substring containment, key in a str value: some suffix of
the text starts with the pattern. -/
def containsSub (p : List Char) : List Char → Bool
  | [] => p.isEmpty
  | c :: cs => startsWith p (c :: cs) || containsSub p cs

/-- The characters of the key relevance. -/
def relevanceKey : List Char := "relevance".toList

/-- The characters of the key gensim. -/
def gensimKey : List Char := "gensim".toList

/-- The characters of the key c_v_per_topic. -/
def cvPerTopicKey : List Char := "c_v_per_topic".toList

/-- get_topic_count from generate_apps.py: the len of the relevance
value when the relevance key is present, otherwise the len of the
c_v_per_topic entry of the gensim value when both are present,
otherwise zero.  The membership probe (c_v_per_topic in data[gensim])
follows the Python semantics of the in operator on each value shape:
key membership on a dict; substring containment on a str, after which
the string indexing raises a TypeError; element equality on a list,
where the key, a string, equals only an equal string, and the list
indexing then raises a TypeError; and a TypeError outright on null,
numbers and booleans, which are not containers.  len() raises a
TypeError on unsized values. -/
def get_topic_count (data : Dict) : Except PyErr Nat :=
  match dlookup data relevanceKey with
  | some v => pyLen v
  | none =>
    match dlookup data gensimKey with
    | none => .ok 0
    | some (Json.obj g) =>
      match dlookup g cvPerTopicKey with
      | some v => pyLen v
      | none => .ok 0
    | some (Json.str s) =>
      if containsSub cvPerTopicKey s then .error .typeError else .ok 0
    | some (Json.arr xs) =>
      if xs.any (fun v =>
          match v with
          | Json.str t => t = cvPerTopicKey
          | _ => false) then .error .typeError
      else .ok 0
    | some Json.atom => .error .typeError

/-- The file-name suffix _coherence_scores.json. -/
def cohSuffix : List Char := "_coherence_scores.json".toList

/-- The file-name suffix _relevance_top_words.json. -/
def relSuffix : List Char := "_relevance_top_words.json".toList

/-- find_data_file from generate_apps.py, over the list of file names
present in the source directory: the coherence_scores file is probed
first and wins when present; otherwise the relevance_top_words file;
otherwise none. -/
def find_data_file (files : List (List Char)) (stem : List Char) :
    Option (List Char) :=
  let cohFile := stem ++ cohSuffix
  if cohFile ∈ files then some cohFile
  else
    let relFile := stem ++ relSuffix
    if relFile ∈ files then some relFile
    else none

/-- A source folder as generate_app sees it: its name, the names of the
files it contains, and the parsed JSON content of each of its JSON
files.  File-system existence of the folder itself is implicit in its
being given as a value. -/
structure SourceFolder where
  name : List Char
  files : List (List Char)
  content : List (List Char × Dict)

/-- load_topic_data: json.load of the named file.  The file is only ever
loaded after find_data_file reported it present. -/
def loadDoc (folder : SourceFolder) (f : List Char) : Dict :=
  match folder.content.find? (fun kv => kv.fst = f) with
  | some kv => kv.snd
  | none => []

/-- The error outcomes of generate_app on the default invocation: the
ValueError for a folder name that does not match the pattern (the
FormatError of the specification), the FileNotFoundError when neither
data file is present, the ValueError for a topic count of zero (the
MissingDataError of the specification), and the uncaught TypeError that
get_topic_count lets escape on a malformed document. -/
inductive GenError where
  | formatError
  | noDataFile
  | missingData
  | typeError
deriving DecidableEq, Repr

/-- generate_output_dir_name from generate_apps.py: every underscore of
the dataset replaced by a dash, then a dash, the method, a dash, and the
decimal rendering of the topic count. -/
def generate_output_dir_name (metadata : FolderDescriptor) : List Char :=
  metadata.dataset.map (fun c => if c = '_' then '-' else c) ++
    ['-'] ++ metadata.method ++ ['-'] ++ natDigits metadata.topic_count

/-- The observable result of a successful generate_app run: the final
metadata and the name of the output directory it populates. -/
structure GenResult where
  metadata : FolderDescriptor
  outputDirName : List Char
deriving DecidableEq, Repr

/-- generate_app from generate_apps.py, on the default invocation used
by generate_all_apps (no prefix, method, dataset or output_dir
overrides, source folder present): parse the folder name or fail with
the format error; find the data file or fail; load it, derive the topic
count, and fail when that count is zero; otherwise overwrite the
topic_count of the parsed metadata with the derived count and produce
the output directory named from the updated metadata.  A TypeError
escaping get_topic_count propagates out of generate_app, which catches
nothing.  The copying of artifact files into the output tree carries no
information the claims mention and is elided. -/
def generate_app (folder : SourceFolder) : Except GenError GenResult :=
  match parse_folder_name folder.name with
  | none => .error .formatError
  | some metadata =>
    match find_data_file folder.files folder.name with
    | none => .error .noDataFile
    | some f =>
      let topic_data := loadDoc folder f
      match get_topic_count topic_data with
      | .error _ => .error .typeError
      | .ok topic_count =>
        if topic_count = 0 then .error .missingData
        else
          let metadata2 : FolderDescriptor :=
            ⟨metadata.dataset, metadata.method, topic_count⟩
          .ok ⟨metadata2, generate_output_dir_name metadata2⟩

/-- Lexicographic order on names by character code, the order sorted()
imposes on the directory entries. -/
def nameLe : List Char → List Char → Bool
  | [], _ => true
  | _ :: _, [] => false
  | x :: xs, y :: ys =>
    if x.toNat < y.toNat then true
    else if x.toNat = y.toNat then nameLe xs ys
    else false

/-- Stable insertion into a sorted list of folders. -/
def insertSorted (f : SourceFolder) : List SourceFolder → List SourceFolder
  | [] => [f]
  | g :: gs => if nameLe f.name g.name then f :: g :: gs else g :: insertSorted f gs

/-- The sorted() traversal order of the source directory. -/
def sortFolders : List SourceFolder → List SourceFolder
  | [] => []
  | f :: fs => insertSorted f (sortFolders fs)

/-- generate_all_apps from generate_apps.py, over the directory entries
of the source directory: traverse them in sorted order, skip entries
whose names do not match the pattern, run generate_app on each matching
folder, append the output path on success, and swallow the exception on
failure so that iteration continues. -/
def generate_all_apps (entries : List SourceFolder) : List (List Char) :=
  (sortFolders entries).foldl
    (fun generated folder =>
      match parse_folder_name folder.name with
      | none => generated
      | some _ =>
        match generate_app folder with
        | .ok r => generated ++ [r.outputDirName]
        | .error _ => generated)
    []

/-- The per-folder outcome of the batch driver: the output directory
name when the folder name matches and generate_app succeeds, and none
otherwise. -/
def appOutcome (folder : SourceFolder) : Option (List Char) :=
  match parse_folder_name folder.name with
  | none => none
  | some _ =>
    match generate_app folder with
    | .ok r => some r.outputDirName
    | .error _ => none

/-- Modelled from the spec: the output-directory name as section 6 of
the specification words it, the dataset with every underscore replaced
by a dash, followed by a dash, the method, a dash, and the topic count.
The replacement is written as direct recursion to be compared with the
map of the code. -/
def specDashed : List Char → List Char
  | [] => []
  | c :: cs => (if c = '_' then '-' else c) :: specDashed cs

/-- Modelled from the spec: the full output-directory name of section 6,
dataset with dashes, dash, method, dash, topic count. -/
def specOutputDirName (metadata : FolderDescriptor) : List Char :=
  specDashed metadata.dataset ++ ['-'] ++ metadata.method ++ ['-'] ++
    natDigits metadata.topic_count

/-
Helper lemmas about dropPre, the safety of the separator against
overlaps, decimal digits, and the greedy search.
-/

theorem dropPre_self (p t : List Char) : dropPre p (p ++ t) = some t := by
  induction p with
  | nil => rfl
  | cons c cs ih => simp [dropPre, ih]

theorem dropPre_some {p s t : List Char} (h : dropPre p s = some t) :
    s = p ++ t := by
  induction p generalizing s with
  | nil =>
    simp only [dropPre, Option.some.injEq] at h
    simpa using h
  | cons c cs ih =>
    cases s with
    | nil => simp [dropPre] at h
    | cons x xs =>
      by_cases hx : x = c
      · subst hx
        simp only [dropPre, if_pos rfl] at h
        simpa using ih h
      · simp [dropPre, hx] at h

theorem dropPre_none_of_digit_head {p : Char} {ps xs : List Char}
    (hp : isPyDigit p = false) (hxs : ∀ c ∈ xs, isPyDigit c = true) :
    dropPre (p :: ps) xs = none := by
  cases xs with
  | nil => rfl
  | cons x xs =>
    have hx : x ≠ p := by
      intro he
      have := hxs x (List.mem_cons_self x xs)
      rw [he, hp] at this
      exact Bool.false_ne_true this
    simp [dropPre, hx]

/-- A check that the pattern cannot match starting inside the given
text followed by any run of digits: either the pattern mismatches
inside the text, or the text runs out while the next pattern character
is not a digit. -/
def sepSafe : List Char → List Char → Bool
  | [], _ => false
  | p :: _, [] => ! isPyDigit p
  | p :: ps, c :: cs => if c = p then sepSafe ps cs else true

theorem dropPre_none_of_sepSafe {p t ds : List Char}
    (hs : sepSafe p t = true) (hds : ∀ c ∈ ds, isPyDigit c = true) :
    dropPre p (t ++ ds) = none := by
  induction t generalizing p with
  | nil =>
    cases p with
    | nil => simp [sepSafe] at hs
    | cons q qs =>
      have hq : isPyDigit q = false := by
        simpa [sepSafe] using hs
      simpa using dropPre_none_of_digit_head hq hds
  | cons c cs ih =>
    cases p with
    | nil => simp [sepSafe] at hs
    | cons q qs =>
      by_cases hc : c = q
      · subst hc
        have hs' : sepSafe qs cs = true := by
          simpa [sepSafe] using hs
        simpa [dropPre] using ih hs'
      · simp [dropPre, hc]

/-- Every nonempty suffix of the text is safe against the separator
pattern. -/
def allSuffixSafe : List Char → Bool
  | [] => true
  | _ :: cs => sepSafe sepChars cs && allSuffixSafe cs

theorem dropPre_sep_none_of_suffix {t ds : List Char}
    (ht : allSuffixSafe t = true) (hds : ∀ c ∈ ds, isPyDigit c = true) :
    ∀ j, 1 ≤ j → dropPre sepChars ((t ++ ds).drop j) = none := by
  induction t with
  | nil =>
    intro j hj
    simp only [List.nil_append]
    have hds' : ∀ c ∈ ds.drop j, isPyDigit c = true :=
      fun c hc => hds c (List.drop_subset j ds hc)
    exact dropPre_none_of_digit_head (p := '_') (by decide) hds'
  | cons c cs ih =>
    intro j hj
    obtain ⟨k, rfl⟩ : ∃ k, j = k + 1 := ⟨j - 1, by omega⟩
    simp only [List.cons_append, List.drop_succ_cons]
    rcases Nat.eq_zero_or_pos k with hk | hk
    · subst hk
      simp only [List.drop_zero]
      have h1 : sepSafe sepChars cs = true := by
        simp only [allSuffixSafe, Bool.and_eq_true] at ht
        exact ht.1
      exact dropPre_none_of_sepSafe h1 hds
    · have h2 : allSuffixSafe cs = true := by
        simp only [allSuffixSafe, Bool.and_eq_true] at ht
        exact ht.2
      exact ih h2 k hk

theorem stripMethod_some {s m r : List Char} (h : stripMethod s = some (m, r)) :
    (m = nmtfChars ∨ m = pnmfChars) ∧ s = m ++ r := by
  unfold stripMethod at h
  split at h
  next r1 h1 =>
    simp only [Option.some.injEq, Prod.mk.injEq] at h
    obtain ⟨hm, hr⟩ := h
    subst hm
    subst hr
    exact ⟨Or.inl rfl, dropPre_some h1⟩
  next h1 =>
    split at h
    next r2 h2 =>
      simp only [Option.some.injEq, Prod.mk.injEq] at h
      obtain ⟨hm, hr⟩ := h
      subst hm
      subst hr
      exact ⟨Or.inr rfl, dropPre_some h2⟩
    next h2 => exact absurd h (by simp)

theorem stripDollar_eq_self {ds : List Char} (hne : ds ≠ [])
    (hdig : ds.all isPyDigit = true) : stripDollar ds = ds := by
  have hlast : ds.getLast? = some (ds.getLast hne) :=
    List.getLast?_eq_getLast ds hne
  have hd : isPyDigit (ds.getLast hne) = true :=
    List.all_eq_true.mp hdig _ (List.getLast_mem hne)
  have hnl : ds.getLast hne ≠ '\n' := by
    intro he
    rw [he] at hd
    exact absurd hd (by decide)
  unfold stripDollar
  rw [hlast]
  simp [hnl]

theorem stripDollar_split (rest : List Char) :
    ∃ t, (t = [] ∨ t = ['\n']) ∧ rest = stripDollar rest ++ t := by
  unfold stripDollar
  by_cases h : rest.getLast? = some '\n'
  · rw [if_pos h]
    have hne : rest ≠ [] := by
      intro he
      subst he
      simp at h
    have hg : rest.getLast hne = '\n' := by
      have h2 := List.getLast?_eq_getLast rest hne
      rw [h2] at h
      injection h
    refine ⟨['\n'], Or.inr rfl, ?_⟩
    conv_lhs => rw [← List.dropLast_append_getLast hne]
    rw [hg]
  · rw [if_neg h]
    exact ⟨[], Or.inl rfl, by simp⟩

theorem parseAt_eq_some {d m ds : List Char}
    (hd : d ≠ []) (hnl : '\n' ∉ d) (hm : m = nmtfChars ∨ m = pnmfChars)
    (hne : ds ≠ []) (hdig : ds.all isPyDigit = true) :
    parseAt (d ++ sepChars ++ m ++ bpeChars ++ ds) d.length =
      some ⟨d, m, natOfDigits ds⟩ := by
  have hs : d ++ sepChars ++ m ++ bpeChars ++ ds =
      d ++ (sepChars ++ (m ++ (bpeChars ++ ds))) := by
    simp [List.append_assoc]
  have hi : ¬ d.length = 0 := by
    cases d with
    | nil => exact absurd rfl hd
    | cons c cs => simp
  have hsm : stripMethod (m ++ (bpeChars ++ ds)) = some (m, bpeChars ++ ds) := by
    rcases hm with hm | hm <;> subst hm
    · unfold stripMethod
      rw [dropPre_self]
    · unfold stripMethod
      have hno : dropPre nmtfChars (pnmfChars ++ (bpeChars ++ ds)) = none := rfl
      rw [hno, dropPre_self]
  have hsd : stripDollar ds = ds := stripDollar_eq_self hne hdig
  have hemp : ds.isEmpty = false := by
    cases ds with
    | nil => exact absurd rfl hne
    | cons c cs => rfl
  rw [hs]
  unfold parseAt
  rw [if_neg hi, List.take_left, if_neg hnl, List.drop_left]
  simp only [dropPre_self, hsm, hsd, hemp, hdig, List.take_left]
  simp

theorem parseAt_gt_none {d m ds : List Char}
    (hm : m = nmtfChars ∨ m = pnmfChars)
    (hds : ∀ c ∈ ds, isPyDigit c = true) (j : Nat) (hj : 1 ≤ j) :
    parseAt (d ++ sepChars ++ m ++ bpeChars ++ ds) (d.length + j) = none := by
  have hs : d ++ sepChars ++ m ++ bpeChars ++ ds =
      d ++ ((sepChars ++ m ++ bpeChars) ++ ds) := by
    simp [List.append_assoc]
  have hsafe : allSuffixSafe (sepChars ++ m ++ bpeChars) = true := by
    rcases hm with hm | hm <;> subst hm <;> decide
  have hnone := dropPre_sep_none_of_suffix hsafe hds j hj
  rw [hs]
  unfold parseAt
  rw [if_neg (by omega)]
  by_cases hnlc :
      '\n' ∈ (d ++ ((sepChars ++ m ++ bpeChars) ++ ds)).take (d.length + j)
  · rw [if_pos hnlc]
  · rw [if_neg hnlc, List.drop_append j, hnone]

theorem tryFrom_skip (s : List Char) :
    ∀ i b, b ≤ i → (∀ j, b < j → j ≤ i → parseAt s j = none) →
      tryFrom s i = tryFrom s b := by
  intro i
  induction i with
  | zero =>
    intro b hb _
    have hb0 : b = 0 := Nat.le_zero.mp hb
    subst hb0
    rfl
  | succ i ih =>
    intro b hb h
    by_cases he : b = i + 1
    · subst he
      rfl
    · have hb' : b ≤ i := by omega
      have hnone : parseAt s (i + 1) = none := h (i + 1) (by omega) (Nat.le_refl _)
      have hstep : tryFrom s (i + 1) = tryFrom s i := by
        simp [tryFrom, hnone]
      rw [hstep]
      exact ih b hb' (fun j h1 h2 => h j h1 (Nat.le_succ_of_le h2))

theorem tryFrom_some (s : List Char) :
    ∀ i r, tryFrom s i = some r →
      ∃ j, 1 ≤ j ∧ j ≤ i ∧ parseAt s j = some r := by
  intro i
  induction i with
  | zero =>
    intro r h
    simp [tryFrom] at h
  | succ i ih =>
    intro r h
    cases hp : parseAt s (i + 1) with
    | some r' =>
      have hr : r' = r := by simpa [tryFrom, hp] using h
      exact ⟨i + 1, by omega, Nat.le_refl _, hr ▸ hp⟩
    | none =>
      have h' : tryFrom s i = some r := by simpa [tryFrom, hp] using h
      obtain ⟨j, h1, h2, h3⟩ := ih r h'
      exact ⟨j, h1, Nat.le_succ_of_le h2, h3⟩

theorem parseAt_some_regexLang {s : List Char} {i : Nat} {r : FolderDescriptor}
    (h : parseAt s i = some r) : matchesRegexLang s := by
  unfold parseAt at h
  by_cases hi : i = 0
  · rw [if_pos hi] at h
    exact absurd h (by simp)
  · rw [if_neg hi] at h
    by_cases hnl : '\n' ∈ s.take i
    · rw [if_pos hnl] at h
      exact absurd h (by simp)
    · rw [if_neg hnl] at h
      split at h
      next h1 => exact absurd h (by simp)
      next r1 h1 =>
        split at h
        next hsm => exact absurd h (by simp)
        next m r2 hsm =>
          split at h
          next h3 => exact absurd h (by simp)
          next rest h3 =>
            split at h
            next hemp => exact absurd h (by simp)
            next hemp =>
              split at h
              next hdig =>
                obtain ⟨hmOr, hr1⟩ := stripMethod_some hsm
                have e1 : s.drop i = sepChars ++ r1 := dropPre_some h1
                have e2 : r2 = bpeChars ++ rest := dropPre_some h3
                have hne : stripDollar rest ≠ [] := by
                  intro he
                  exact hemp (by rw [he]; rfl)
                obtain ⟨t, ht, hrest⟩ := stripDollar_split rest
                have hs_ne : s ≠ [] := by
                  intro he
                  subst he
                  simp [sepChars] at e1
                have hdne : s.take i ≠ [] := by
                  cases s with
                  | nil => exact absurd rfl hs_ne
                  | cons c cs =>
                    cases i with
                    | zero => exact absurd rfl hi
                    | succ k => simp
                refine ⟨s.take i, m, stripDollar rest, t,
                  hdne, hnl, hmOr, hne, hdig, ht, ?_⟩
                have hfull : s = s.take i ++
                    (sepChars ++ (m ++ (bpeChars ++ (stripDollar rest ++ t)))) := by
                  conv_lhs => rw [← List.take_append_drop i s]
                  rw [e1, hr1, e2, ← hrest]
                conv_lhs => rw [hfull]
                simp [List.append_assoc]
              next hdig => exact absurd h (by simp)

theorem parse_some_regexLang {s : List Char} {r : FolderDescriptor}
    (h : parse_folder_name s = some r) : matchesRegexLang s := by
  obtain ⟨j, _, _, h3⟩ := tryFrom_some s s.length r h
  exact parseAt_some_regexLang h3

theorem parse_complete {d m ds : List Char}
    (hd : d ≠ []) (hnl : '\n' ∉ d) (hm : m = nmtfChars ∨ m = pnmfChars)
    (hne : ds ≠ []) (hdig : ds.all isPyDigit = true) :
    parse_folder_name (d ++ sepChars ++ m ++ bpeChars ++ ds) =
      some ⟨d, m, natOfDigits ds⟩ := by
  have hdig' : ∀ c ∈ ds, isPyDigit c = true := List.all_eq_true.mp hdig
  have hdlen : d.length ≤ (d ++ sepChars ++ m ++ bpeChars ++ ds).length := by
    simp [List.length_append]
  have hnone : ∀ j, d.length < j →
      j ≤ (d ++ sepChars ++ m ++ bpeChars ++ ds).length →
      parseAt (d ++ sepChars ++ m ++ bpeChars ++ ds) j = none := by
    intro j h1 _
    have hj : j = d.length + (j - d.length) := by omega
    rw [hj]
    exact parseAt_gt_none hm hdig' (j - d.length) (by omega)
  have h1 : tryFrom (d ++ sepChars ++ m ++ bpeChars ++ ds)
      (d ++ sepChars ++ m ++ bpeChars ++ ds).length =
      tryFrom (d ++ sepChars ++ m ++ bpeChars ++ ds) d.length :=
    tryFrom_skip _ _ _ hdlen hnone
  obtain ⟨k, hk⟩ : ∃ k, d.length = k + 1 := by
    cases d with
    | nil => exact absurd rfl hd
    | cons c cs => exact ⟨cs.length, rfl⟩
  have h2 : parseAt (d ++ sepChars ++ m ++ bpeChars ++ ds) d.length =
      some ⟨d, m, natOfDigits ds⟩ := parseAt_eq_some hd hnl hm hne hdig
  rw [hk] at h2
  show tryFrom _ _ = _
  rw [h1, hk]
  simp only [tryFrom, h2]

theorem not_matchesRegexLang_of_short {s : List Char} (h : s.length < 26) :
    ¬ matchesRegexLang s := by
  rintro ⟨d, m, ds, t, hd, _, hm, hne, _, _, rfl⟩
  have hm4 : m.length = 4 := by rcases hm with rfl | rfl <;> rfl
  have hds : 1 ≤ ds.length := by
    cases ds with
    | nil => exact absurd rfl hne
    | cons c cs => simp
  have hd1 : 1 ≤ d.length := by
    cases d with
    | nil => exact absurd rfl hd
    | cons c cs => simp
  have hsep : sepChars.length = 15 := rfl
  have hbpe : bpeChars.length = 5 := rfl
  simp only [List.length_append, hm4, hsep, hbpe] at h
  omega

/-- A string of the naming grammar ends in an ASCII digit: the tool for
refuting grammar membership of a concrete string ending otherwise. -/
theorem grammar_ends_with_digit {s : List Char} (h : matchesGrammar s) :
    ∃ c, c.isDigit = true ∧ s.reverse.head? = some c := by
  obtain ⟨d, m, ds, _, hne, hall, rfl⟩ := h
  cases hds : ds.reverse with
  | nil => exact absurd (List.reverse_eq_nil_iff.mp hds) hne
  | cons c rest =>
    have hcm : c ∈ ds := by
      have hcr : c ∈ ds.reverse := by
        rw [hds]
        exact List.mem_cons_self c rest
      exact List.mem_reverse.mp hcr
    refine ⟨c, List.all_eq_true.mp hall c hcm, ?_⟩
    rw [List.reverse_append, hds]
    rfl

theorem pyDigitVal_digitChar {n : Nat} (h : n < 10) :
    pyDigitVal (digitChar n) = n := by
  interval_cases n <;> rfl

theorem digitChar_isPyDigit {n : Nat} (h : n < 10) :
    isPyDigit (digitChar n) = true := by
  interval_cases n <;> rfl

theorem natOfDigits_append (xs : List Char) (c : Char) :
    natOfDigits (xs ++ [c]) = 10 * natOfDigits xs + pyDigitVal c := by
  simp [natOfDigits, List.foldl_append]

theorem natDigitsAux_spec :
    ∀ fuel n, n < fuel →
      natOfDigits (natDigitsAux fuel n) = n ∧ natDigitsAux fuel n ≠ [] ∧
        (natDigitsAux fuel n).all isPyDigit = true := by
  intro fuel
  induction fuel with
  | zero => intro n h; omega
  | succ fuel ih =>
    intro n h
    by_cases h10 : n < 10
    · have hv : natDigitsAux (fuel + 1) n = [digitChar n] := by
        simp [natDigitsAux, h10]
      refine ⟨?_, ?_, ?_⟩
      · rw [hv]
        have hone : natOfDigits [digitChar n] = pyDigitVal (digitChar n) := by
          simp [natOfDigits]
        rw [hone, pyDigitVal_digitChar h10]
      · rw [hv]
        simp
      · rw [hv]
        simp [digitChar_isPyDigit h10]
    · have hd : n / 10 < fuel := by
        have h1 : n / 10 < n := Nat.div_lt_self (by omega) (by omega)
        omega
      obtain ⟨ihv, ihne, ihall⟩ := ih (n / 10) hd
      have hm : n % 10 < 10 := Nat.mod_lt _ (by omega)
      have hv : natDigitsAux (fuel + 1) n =
          natDigitsAux fuel (n / 10) ++ [digitChar (n % 10)] := by
        simp [natDigitsAux, h10]
      refine ⟨?_, ?_, ?_⟩
      · rw [hv, natOfDigits_append, ihv, pyDigitVal_digitChar hm]
        omega
      · rw [hv]
        simp
      · rw [hv]
        simp [List.all_append, ihall, digitChar_isPyDigit hm]

theorem natDigits_spec (n : Nat) :
    natOfDigits (natDigits n) = n ∧ natDigits n ≠ [] ∧
      (natDigits n).all isPyDigit = true :=
  natDigitsAux_spec (n + 1) n (Nat.lt_succ_self n)

theorem specDashed_eq_map (l : List Char) :
    l.map (fun c => if c = '_' then '-' else c) = specDashed l := by
  induction l with
  | nil => rfl
  | cons c cs ih => simp [specDashed, ih]

theorem foldl_outcome (l : List SourceFolder) (acc : List (List Char)) :
    l.foldl
      (fun generated folder =>
        match parse_folder_name folder.name with
        | none => generated
        | some _ =>
          match generate_app folder with
          | .ok r => generated ++ [r.outputDirName]
          | .error _ => generated)
      acc = acc ++ l.filterMap appOutcome := by
  induction l generalizing acc with
  | nil => simp
  | cons f fs ih =>
    simp only [List.foldl_cons, List.filterMap_cons]
    cases hp : parse_folder_name f.name with
    | none =>
      have ho : appOutcome f = none := by
        simp [appOutcome, hp]
      simp only [ho]
      exact ih acc
    | some md =>
      cases hg : generate_app f with
      | ok r =>
        have ho : appOutcome f = some r.outputDirName := by
          simp [appOutcome, hp, hg]
        simp only [ho]
        exact (ih (acc ++ [r.outputDirName])).trans (by simp)
      | error e =>
        have ho : appOutcome f = none := by
          simp [appOutcome, hp, hg]
        simp only [ho]
        exact ih acc

/-
The claims.
-/

/-- C1 counterexample: two instances of the claimed form that the
parser rejects.  The name _with_pagerank_nmtf_bpe_3 is of the form
d_with_pagerank_m_bpe_n with d empty, m nmtf and n the literal 3, yet
parse_folder_name returns no descriptor, because the dataset group of
the pattern requires at least one character; and the name built from
the two-line dataset a-newline-b is also of the claimed form, yet the
parser rejects it too, because the dot of the dataset group never
matches a newline. -/
theorem C1_counterexample :
    ("_with_pagerank_nmtf_bpe_3".toList =
      ([] : List Char) ++ sepChars ++ nmtfChars ++ bpeChars ++ natDigits 3 ∧
     parse_folder_name "_with_pagerank_nmtf_bpe_3".toList = none) ∧
    ("a\nb_with_pagerank_nmtf_bpe_34".toList =
      "a\nb".toList ++ sepChars ++ nmtfChars ++ bpeChars ++ natDigits 34 ∧
     parse_folder_name "a\nb_with_pagerank_nmtf_bpe_34".toList = none) := by
  refine ⟨⟨?_, ?_⟩, ⟨?_, ?_⟩⟩ <;> decide

/-- C1 (amended: the dataset part must be nonempty and contain no
newline): for every string of the form d_with_pagerank_m_bpe_n with d a
nonempty newline-free string, m equal to nmtf or pnmf and n a
non-negative integer rendered as a decimal literal, parse_folder_name
succeeds and returns the descriptor with dataset d, method m and
topic_count n verbatim; in particular
heart_failure_with_pagerank_nmtf_bpe_34 yields dataset heart_failure,
method nmtf and topic count 34. -/
theorem C1_parse_returns_descriptor (d m : List Char) (n : Nat)
    (hd : d ≠ []) (hnl : '\n' ∉ d) (hm : m = nmtfChars ∨ m = pnmfChars) :
    parse_folder_name (d ++ sepChars ++ m ++ bpeChars ++ natDigits n) =
      some ⟨d, m, n⟩ ∧
    parse_folder_name "heart_failure_with_pagerank_nmtf_bpe_34".toList =
      some ⟨"heart_failure".toList, nmtfChars, 34⟩ := by
  obtain ⟨hval, hne, hdig⟩ := natDigits_spec n
  constructor
  · rw [parse_complete hd hnl hm hne hdig, hval]
  · decide

/-- Witness for C1: the amended theorem applied at dataset x, method
pnmf, topic count 7. -/
theorem C1_witness :
    parse_folder_name (['x'] ++ sepChars ++ pnmfChars ++ bpeChars ++ natDigits 7) =
      some ⟨['x'], pnmfChars, 7⟩ :=
  (C1_parse_returns_descriptor ['x'] pnmfChars 7 (by decide) (by decide)
    (Or.inr rfl)).1

/-- C2 counterexample: two folder names outside the naming grammar that
the parser nonetheless accepts with a descriptor, refuting the claim
that every non-matching name is rejected.  The dollar anchor of the
pattern also matches just before a final newline, so the name
a_with_pagerank_nmtf_bpe_10 followed by one newline is accepted with
count 10; and the digit class covers every Unicode decimal digit, so
the name ending in the Arabic-Indic digit three, code point 0x663, is
accepted with count 3.  Neither string matches the grammar, whose count
is a run of ASCII digits ending the name. -/
theorem C2_counterexample :
    (¬ matchesGrammar "a_with_pagerank_nmtf_bpe_10\n".toList ∧
     parse_folder_name "a_with_pagerank_nmtf_bpe_10\n".toList =
       some ⟨['a'], nmtfChars, 10⟩) ∧
    (¬ matchesGrammar ("a_with_pagerank_nmtf_bpe_".toList ++ [Char.ofNat 1635]) ∧
     parse_folder_name ("a_with_pagerank_nmtf_bpe_".toList ++ [Char.ofNat 1635]) =
       some ⟨['a'], nmtfChars, 3⟩) := by
  refine ⟨⟨?_, by decide⟩, ⟨?_, by decide⟩⟩
  · intro hmg
    obtain ⟨c, hcd, hhead⟩ := grammar_ends_with_digit hmg
    have hh : ("a_with_pagerank_nmtf_bpe_10\n".toList).reverse.head? =
        some '\n' := by decide
    rw [hh] at hhead
    injection hhead with he
    rw [← he] at hcd
    exact absurd hcd (by decide)
  · intro hmg
    obtain ⟨c, hcd, hhead⟩ := grammar_ends_with_digit hmg
    have hh : ("a_with_pagerank_nmtf_bpe_".toList ++
        [Char.ofNat 1635]).reverse.head? = some (Char.ofNat 1635) := by decide
    rw [hh] at hhead
    injection hhead with he
    rw [← he] at hcd
    exact absurd hcd (by decide)

/-- C2 (amended: with the language the regular expression accepts in
place of the naming grammar; the two differ in that the expression also
steps over one trailing newline and admits Unicode decimal digits in
the count): every folder name outside the accepted language is rejected
rather than guessed at: parse_folder_name returns no descriptor, and
generate_app on such a folder fails with the format error; in
particular studyXYZ_pnmf_bpe_10 is not accepted and is not parsed. -/
theorem C2_nonmatching_rejected :
    (∀ s : List Char, ¬ matchesRegexLang s → parse_folder_name s = none) ∧
    (∀ folder : SourceFolder, parse_folder_name folder.name = none →
      generate_app folder = .error .formatError) ∧
    ¬ matchesRegexLang "studyXYZ_pnmf_bpe_10".toList ∧
    parse_folder_name "studyXYZ_pnmf_bpe_10".toList = none := by
  refine ⟨?_, ?_, ?_, ?_⟩
  · intro s hng
    cases hp : parse_folder_name s with
    | none => rfl
    | some r => exact absurd (parse_some_regexLang hp) hng
  · intro folder hp
    simp [generate_app, hp]
  · exact not_matchesRegexLang_of_short (by decide)
  · decide

/-- Witness for C2: the rejection theorem applied to the concrete
non-matching name abc, as a bare string and as a folder. -/
theorem C2_witness :
    parse_folder_name "abc".toList = none ∧
    generate_app ⟨"abc".toList, [], []⟩ = .error .formatError := by
  constructor
  · exact C2_nonmatching_rejected.1 "abc".toList
      (not_matchesRegexLang_of_short (by decide))
  · exact C2_nonmatching_rejected.2.1 ⟨"abc".toList, [], []⟩ (by decide)

/-- C3: a score document whose relevance entry is a mapping of size k
with k at least one yields topic count k from get_topic_count, no
matter what else (in particular a gensim entry) the document holds,
because the relevance branch is checked first. -/
theorem C3_relevance_count (data : Dict) (rel : List (List Char × Json))
    (hrel : dlookup data relevanceKey = some (Json.obj rel))
    (hk : 1 ≤ rel.length) :
    get_topic_count data = .ok rel.length := by
  simp [get_topic_count, hrel, pyLen]

/-- The relevance mapping of the C3 witness document, two topics. -/
def relC3 : List (List Char × Json) :=
  [("00".toList, Json.atom), ("01".toList, Json.atom)]

/-- The C3 witness document: a relevance mapping of size two next to a
gensim mapping of a different size. -/
def dataC3 : Dict :=
  [(relevanceKey, Json.obj relC3),
   (gensimKey, Json.obj [(cvPerTopicKey, Json.obj [("0".toList, Json.atom)])])]

/-- Witness for C3: the relevance count theorem on the concrete
document, giving two topics although the gensim mapping has one. -/
theorem C3_witness : get_topic_count dataC3 = .ok 2 :=
  (C3_relevance_count dataC3 relC3 rfl (by decide)).trans rfl

/-- C4: a score document with no relevance key whose gensim entry is a
mapping with a c_v_per_topic entry that is a mapping of size k yields
topic count k from get_topic_count. -/
theorem C4_gensim_count (data : Dict) (g cv : List (List Char × Json))
    (hrel : dlookup data relevanceKey = none)
    (hg : dlookup data gensimKey = some (Json.obj g))
    (hcv : dlookup g cvPerTopicKey = some (Json.obj cv)) :
    get_topic_count data = .ok cv.length := by
  simp [get_topic_count, hrel, hg, hcv, pyLen]

/-- The gensim mapping of the C4 witness document. -/
def gC4 : List (List Char × Json) :=
  [(cvPerTopicKey,
    Json.obj [("0".toList, Json.atom), ("1".toList, Json.atom),
              ("2".toList, Json.atom)])]

/-- The C4 witness document: no relevance key, a gensim mapping whose
c_v_per_topic mapping has three entries. -/
def dataC4 : Dict := [(gensimKey, Json.obj gC4)]

/-- Witness for C4: the gensim count theorem on the concrete document,
giving three topics. -/
theorem C4_witness : get_topic_count dataC4 = .ok 3 :=
  (C4_gensim_count dataC4 gC4
    [("0".toList, Json.atom), ("1".toList, Json.atom), ("2".toList, Json.atom)]
    rfl rfl rfl).trans rfl

/-- The C5 counterexample document: gensim bound to null. -/
def dataC5x : Dict := [(gensimKey, Json.atom)]

/-- The C5 counterexample folder: a well-named folder whose
coherence_scores file binds gensim to null. -/
def folderC5x : SourceFolder :=
  ⟨"a_with_pagerank_nmtf_bpe_3".toList,
   ["a_with_pagerank_nmtf_bpe_3_coherence_scores.json".toList],
   [("a_with_pagerank_nmtf_bpe_3_coherence_scores.json".toList, dataC5x)]⟩

/-- C5 counterexample: the document binding gensim to null contains
neither a relevance key nor a gensim mapping with a c_v_per_topic key,
yet get_topic_count does not return zero: probing the non-mapping for
the key raises a TypeError, which generate_app propagates in place of
the missing-data error. -/
theorem C5_counterexample :
    dlookup dataC5x relevanceKey = none ∧
    (∀ g, dlookup dataC5x gensimKey = some (Json.obj g) → False) ∧
    get_topic_count dataC5x = .error .typeError ∧
    generate_app folderC5x = .error .typeError := by
  refine ⟨rfl, ?_, rfl, rfl⟩
  intro g h
  have hx : dlookup dataC5x gensimKey = some Json.atom := rfl
  rw [hx] at h
  injection h with h2
  exact Json.noConfusion h2

/-- The documents of the amended C5: the gensim entry, if any, is a
value on which the c_v_per_topic probe finds nothing and raises
nothing: a mapping without the key, a str not containing the key text,
or a list not containing the key string.  Null, numbers and booleans
are excluded, since probing them for a key raises a TypeError. -/
def gensimKeyless (data : Dict) : Prop :=
  match dlookup data gensimKey with
  | none => True
  | some (Json.obj g) => dlookup g cvPerTopicKey = none
  | some (Json.str s) => containsSub cvPerTopicKey s = false
  | some (Json.arr xs) =>
      (xs.any (fun v =>
        match v with
        | Json.str t => t = cvPerTopicKey
        | _ => false)) = false
  | some Json.atom => False

/-- C5 (amended: the gensim value, when present, must itself be one the
key probe traverses without raising — a mapping, str or list in which
c_v_per_topic is not found; on null, numbers and booleans, and on str
or list values that do contain the key, the code raises a TypeError
instead): such a document yields topic count zero from get_topic_count,
and generate_app rejects any folder whose data file holds it with the
missing-data error instead of producing output. -/
theorem C5_zero_topics_rejected (data : Dict)
    (hrel : dlookup data relevanceKey = none)
    (hg : gensimKeyless data) :
    get_topic_count data = .ok 0 ∧
    ∀ (folder : SourceFolder) (md : FolderDescriptor) (f : List Char),
      parse_folder_name folder.name = some md →
      find_data_file folder.files folder.name = some f →
      loadDoc folder f = data →
      generate_app folder = .error .missingData := by
  have h0 : get_topic_count data = .ok 0 := by
    unfold gensimKeyless at hg
    simp only [get_topic_count, hrel]
    cases hgl : dlookup data gensimKey with
    | none => rfl
    | some v =>
      rw [hgl] at hg
      cases v with
      | atom => exact (hg : False).elim
      | str s =>
        have hg' : containsSub cvPerTopicKey s = false := hg
        simp [hg']
      | arr l =>
        have hg' : (l.any (fun v =>
            match v with
            | Json.str t => t = cvPerTopicKey
            | _ => false)) = false := hg
        simp [hg']
      | obj g =>
        have hg' : dlookup g cvPerTopicKey = none := hg
        simp [hg']
  refine ⟨h0, ?_⟩
  intro folder md f hp hf hload
  simp [generate_app, hp, hf, hload, h0]

/-- The C5 witness folder: a well-named folder whose coherence_scores
file holds the empty document. -/
def folderC5 : SourceFolder :=
  ⟨"a_with_pagerank_nmtf_bpe_3".toList,
   ["a_with_pagerank_nmtf_bpe_3_coherence_scores.json".toList],
   [("a_with_pagerank_nmtf_bpe_3_coherence_scores.json".toList, [])]⟩

/-- Witness for C5: the rejection theorem on the empty document and the
concrete folder holding it. -/
theorem C5_witness :
    get_topic_count ([] : Dict) = .ok 0 ∧
    generate_app folderC5 = .error .missingData := by
  have h := C5_zero_topics_rejected [] rfl trivial
  exact ⟨h.1, h.2 folderC5 ⟨"a".toList, nmtfChars, 3⟩
    "a_with_pagerank_nmtf_bpe_3_coherence_scores.json".toList
    (by decide) (by decide) rfl⟩

/-- C6: data-file selection: when both the coherence_scores file and the
relevance_top_words file of the folder exist, find_data_file selects the
coherence_scores file; when only one of the two exists, it selects that
one; when neither exists, it finds nothing and generate_app fails with
the no-data-file error for that folder. -/
theorem C6_data_file_selection (files : List (List Char)) (stem : List Char) :
    (stem ++ cohSuffix ∈ files →
      find_data_file files stem = some (stem ++ cohSuffix)) ∧
    (stem ++ cohSuffix ∉ files → stem ++ relSuffix ∈ files →
      find_data_file files stem = some (stem ++ relSuffix)) ∧
    (stem ++ cohSuffix ∉ files → stem ++ relSuffix ∉ files →
      find_data_file files stem = none) ∧
    ∀ (folder : SourceFolder) (md : FolderDescriptor),
      parse_folder_name folder.name = some md →
      folder.name ++ cohSuffix ∉ folder.files →
      folder.name ++ relSuffix ∉ folder.files →
      generate_app folder = .error .noDataFile := by
  refine ⟨?_, ?_, ?_, ?_⟩
  · intro h
    simp [find_data_file, h]
  · intro h1 h2
    simp [find_data_file, h1, h2]
  · intro h1 h2
    simp [find_data_file, h1, h2]
  · intro folder md hp h1 h2
    have hn : find_data_file folder.files folder.name = none := by
      simp [find_data_file, h1, h2]
    simp [generate_app, hp, hn]

/-- Witness for C6: the selection theorem at concrete file lists with
both files, only the relevance file, and neither, and the concrete
rejection of a well-named folder with no data file. -/
theorem C6_witness :
    find_data_file ["x".toList ++ cohSuffix, "x".toList ++ relSuffix]
      "x".toList = some ("x".toList ++ cohSuffix) ∧
    find_data_file ["x".toList ++ relSuffix] "x".toList =
      some ("x".toList ++ relSuffix) ∧
    find_data_file ([] : List (List Char)) "x".toList = none ∧
    generate_app ⟨"a_with_pagerank_nmtf_bpe_3".toList, [], []⟩ =
      .error .noDataFile := by
  refine ⟨?_, ?_, ?_, ?_⟩
  · exact (C6_data_file_selection _ _).1 (by decide)
  · exact (C6_data_file_selection ["x".toList ++ relSuffix] "x".toList).2.1
      (by decide) (by decide)
  · exact (C6_data_file_selection [] "x".toList).2.2.1 (by decide) (by decide)
  · exact (C6_data_file_selection [] "x".toList).2.2.2
      ⟨"a_with_pagerank_nmtf_bpe_3".toList, [], []⟩
      ⟨"a".toList, nmtfChars, 3⟩ (by decide) (by decide) (by decide)

/-- C7: for every descriptor, the generated output directory name is the
dataset with every underscore replaced by a dash, followed by a dash,
the method, a dash, and the topic count, as the specification words it;
in particular the descriptor heart_failure, nmtf, 34 names the directory
heart-failure-nmtf-34. -/
theorem C7_output_dir_name :
    (∀ md : FolderDescriptor,
      generate_output_dir_name md = specOutputDirName md) ∧
    generate_output_dir_name ⟨"heart_failure".toList, nmtfChars, 34⟩ =
      "heart-failure-nmtf-34".toList := by
  constructor
  · intro md
    unfold generate_output_dir_name specOutputDirName
    rw [specDashed_eq_map]
  · decide

/-- C8: when generate_app succeeds, the topic count parsed from the
folder name has been overwritten by the count derived from the JSON
score document before the output is named, while the dataset and method
fields remain exactly as parsed from the folder name: the result carries
the parsed dataset and method, the derived count, and an output
directory named from that updated descriptor. -/
theorem C8_topic_count_overwritten (folder : SourceFolder)
    (md : FolderDescriptor) (f : List Char) (k : Nat)
    (hp : parse_folder_name folder.name = some md)
    (hf : find_data_file folder.files folder.name = some f)
    (hk : get_topic_count (loadDoc folder f) = .ok k) (hk0 : k ≠ 0) :
    generate_app folder =
      .ok ⟨⟨md.dataset, md.method, k⟩,
        generate_output_dir_name ⟨md.dataset, md.method, k⟩⟩ := by
  simp [generate_app, hp, hf, hk, hk0]

/-- The C8 witness folder: named with topic count 5 in the folder name,
holding a coherence_scores file whose relevance mapping has one topic. -/
def folderC8 : SourceFolder :=
  ⟨"a_with_pagerank_nmtf_bpe_5".toList,
   ["a_with_pagerank_nmtf_bpe_5_coherence_scores.json".toList],
   [("a_with_pagerank_nmtf_bpe_5_coherence_scores.json".toList,
     [(relevanceKey, Json.obj [("00".toList, Json.atom)])])]⟩

/-- Witness for C8: the folder named with count 5 produces a result with
the derived count 1 and the output directory a-nmtf-1, dataset and
method as parsed. -/
theorem C8_witness :
    generate_app folderC8 =
      .ok ⟨⟨"a".toList, nmtfChars, 1⟩, "a-nmtf-1".toList⟩ := by
  have h := C8_topic_count_overwritten folderC8 ⟨"a".toList, nmtfChars, 5⟩
    "a_with_pagerank_nmtf_bpe_5_coherence_scores.json".toList 1
    (by decide) (by decide) (by rfl) (by decide)
  exact h.trans (by rfl)

/-- The first C9 witness folder, well formed with one relevance topic. -/
def folderC9a : SourceFolder :=
  ⟨"a_with_pagerank_nmtf_bpe_1".toList,
   ["a_with_pagerank_nmtf_bpe_1_coherence_scores.json".toList],
   [("a_with_pagerank_nmtf_bpe_1_coherence_scores.json".toList,
     [(relevanceKey, Json.obj [("00".toList, Json.atom)])])]⟩

/-- The second C9 witness folder, well named but with no data file, so
generate_app fails on it. -/
def folderC9b : SourceFolder :=
  ⟨"b_with_pagerank_nmtf_bpe_2".toList, [], []⟩

/-- The third C9 witness folder, well formed with two relevance
topics. -/
def folderC9c : SourceFolder :=
  ⟨"c_with_pagerank_pnmf_bpe_3".toList,
   ["c_with_pagerank_pnmf_bpe_3_coherence_scores.json".toList],
   [("c_with_pagerank_pnmf_bpe_3_coherence_scores.json".toList,
     [(relevanceKey, Json.obj [("00".toList, Json.atom),
                               ("01".toList, Json.atom)])])]⟩

/-- C9: the batch driver visits the folders in sorted order, attempts
each folder whose name matches the pattern exactly once, and collects
exactly the output paths of the successful runs: its result is the
filter-map of the per-folder outcome over the sorted entries, so one
folder's failure never aborts the rest; concretely, with a failing
folder sitting between two good ones, both good outputs are still
produced. -/
theorem C9_batch_isolation :
    (∀ entries : List SourceFolder,
      generate_all_apps entries = (sortFolders entries).filterMap appOutcome) ∧
    generate_all_apps [folderC9a, folderC9b, folderC9c] =
      ["a-nmtf-1".toList, "c-pnmf-2".toList] := by
  constructor
  · intro entries
    unfold generate_all_apps
    rw [foldl_outcome]
    simp
  · decide

/-- C10: a document whose relevance key holds an empty mapping yields
topic count zero from get_topic_count even when a non-empty
gensim c_v_per_topic mapping is also present, because the relevance
branch shadows the gensim branch instead of falling through; hence
generate_app rejects any folder whose data file holds such a document
with the missing-data error. -/
theorem C10_empty_relevance_shadows (data : Dict)
    (g cv : List (List Char × Json))
    (hrel : dlookup data relevanceKey = some (Json.obj []))
    (hg : dlookup data gensimKey = some (Json.obj g))
    (hcv : dlookup g cvPerTopicKey = some (Json.obj cv))
    (hne : cv ≠ []) :
    get_topic_count data = .ok 0 ∧
    ∀ (folder : SourceFolder) (md : FolderDescriptor) (f : List Char),
      parse_folder_name folder.name = some md →
      find_data_file folder.files folder.name = some f →
      loadDoc folder f = data →
      generate_app folder = .error .missingData := by
  have h0 : get_topic_count data = .ok 0 := by
    simp [get_topic_count, hrel, pyLen]
  refine ⟨h0, ?_⟩
  intro folder md f hp hf hload
  simp [generate_app, hp, hf, hload, h0]

/-- The gensim mapping of the C10 witness document, with a non-empty
c_v_per_topic mapping. -/
def gC10 : List (List Char × Json) :=
  [(cvPerTopicKey, Json.obj [("0".toList, Json.atom), ("1".toList, Json.atom)])]

/-- The C10 witness document: an empty relevance mapping next to a
gensim mapping with two c_v_per_topic entries. -/
def dataC10 : Dict :=
  [(relevanceKey, Json.obj []), (gensimKey, Json.obj gC10)]

/-- The C10 witness folder, whose coherence_scores file holds the
shadowed document. -/
def folderC10 : SourceFolder :=
  ⟨"a_with_pagerank_pnmf_bpe_4".toList,
   ["a_with_pagerank_pnmf_bpe_4_coherence_scores.json".toList],
   [("a_with_pagerank_pnmf_bpe_4_coherence_scores.json".toList, dataC10)]⟩

/-- Witness for C10: the shadowing theorem on the concrete document and
folder. -/
theorem C10_witness :
    get_topic_count dataC10 = .ok 0 ∧
    generate_app folderC10 = .error .missingData := by
  have h := C10_empty_relevance_shadows dataC10 gC10
    [("0".toList, Json.atom), ("1".toList, Json.atom)]
    rfl rfl rfl (by simp)
  exact ⟨h.1, h.2 folderC10 ⟨"a".toList, pnmfChars, 4⟩
    "a_with_pagerank_pnmf_bpe_4_coherence_scores.json".toList
    (by decide) (by decide) rfl⟩
